import Mathlib

set_option maxRecDepth 100000

/-!
# Verification of the GovBot-Prototype core against its specification

Shallow embedding of the repository's core logic:
* `app/utils/pii.py` — regex-based PII detection and redaction,
* `app/core/orchestrator.py` — message-history merge and truncation,
* `app/core/rag/indexer.py` — unindexed-document selection, batched
  indexed-flag marking, and the collection indexing run,
* `app/api/endpoints/chat_endpoints.py` — chat session endpoints
  (the `ChatPersistenceService` collaborator is not part of the sources
  and is modelled from the spec where needed).

Python regexes are embedded by a small backtracking matcher specialised to
the shape of the four PII patterns (every quantifier in them applies to a
single character class, so greedy class repetition with backtracking into
the continuation reproduces Python `re` semantics on these patterns).
-/

namespace GovBot

/-! ## Regex engine for the PII patterns (`app/utils/pii.py`) -/

/-- A word character for Python's `\b`, ASCII fragment: `[A-Za-z0-9_]`. -/
def wordChar (c : Char) : Bool := c.isAlphanum || c = '_'

/-- Character at position `i` of the text, if in range. -/
def charAt? (t : List Char) (i : Nat) : Option Char := t.get? i

/-- Does Python's `\b` hold at position `i`? It holds when exactly one side
of the position is a word character (out-of-range counts as non-word). -/
def isBoundary (t : List Char) (i : Nat) : Bool :=
  let before := if i = 0 then false else
    match charAt? t (i - 1) with | some c => wordChar c | none => false
  let after := match charAt? t i with | some c => wordChar c | none => false
  before != after

/-- One item of a (specialised) regex: a greedily repeated character class
`cls p lo hi?` (`hi = none` means unbounded), a word boundary `\b`, or an
alternation of two item sequences. A single literal is `cls (· = c) 1 (some 1)`. -/
inductive RItem where
  | cls (p : Char → Bool) (lo : Nat) (hi : Option Nat)
  | bnd
  | alt (a b : List RItem)

/-- Length of the prefix run of characters satisfying `p`. -/
def runPrefix (p : Char → Bool) : List Char → Nat
  | [] => 0
  | c :: cs => if p c then runPrefix p cs + 1 else 0

/-- Length of the maximal run of characters satisfying `p` starting at `i`. -/
def runLen (p : Char → Bool) (t : List Char) (i : Nat) : Nat :=
  runPrefix p (t.drop i)

/-- Greedy descent: try `cont k`, `cont (k-1)`, …, `cont lo` in that order
and return the first success (`none` when `k < lo`). -/
def tryDown (cont : Nat → Option Nat) (lo : Nat) : Nat → Option Nat
  | 0 => if lo = 0 then cont 0 else none
  | k + 1 =>
    if k + 1 < lo then none
    else
      match cont (k + 1) with
      | some e => some e
      | none => tryDown cont lo k

/-- Backtracking matcher: match the item sequence at position `i` of `t`,
returning the end position of the match, with Python `re` semantics (greedy
repetition, backtracking into the continuation, left alternative first).
`fuel` bounds the recursion depth through items; every pattern below needs
far less than the fuel the callers supply. -/
def matchItems : Nat → List RItem → List Char → Nat → Option Nat
  | 0, _, _, _ => none
  | _ + 1, [], _, i => some i
  | fuel + 1, .bnd :: rest, t, i =>
      if isBoundary t i then matchItems fuel rest t i else none
  | fuel + 1, .cls p lo hi :: rest, t, i =>
      tryDown (fun k => matchItems fuel rest t (i + k)) lo
        (match hi with | none => runLen p t i | some h => min h (runLen p t i))
  | fuel + 1, .alt a b :: rest, t, i =>
      match matchItems fuel (a ++ rest) t i with
      | some e => some e
      | none => matchItems fuel (b ++ rest) t i

/-- All matches of the pattern in `t`, Python `finditer`-style: scan left to
right, on a match continue at its end (our patterns never match empty, but
the `i + 1` fallback mirrors `finditer`'s empty-match advance). -/
def finditerGo (pat : List RItem) (t : List Char) : Nat → Nat → List (Nat × Nat)
  | _, 0 => []
  | i, fuel + 1 =>
    if i > t.length then []
    else
      match matchItems 1000 pat t i with
      | some e => (i, e) :: finditerGo pat t (if i < e then e else i + 1) fuel
      | none => finditerGo pat t (i + 1) fuel

/-- `pattern.finditer(text)` as (start, end) offset pairs. -/
def finditer (pat : List RItem) (t : List Char) : List (Nat × Nat) :=
  finditerGo pat t 0 (t.length + 1)

/-! ### The four compiled patterns of `_compile_patterns` -/

/-- Shorthand: a single literal character. -/
def chr (c : Char) : RItem := .cls (fun x => x = c) 1 (some 1)

/-- `\b[A-Za-z0-9._%+-]+@[A-Za-z0-9.-]+\.[A-Za-z]{2,}\b` -/
def emailPat : List RItem :=
  [.bnd,
   .cls (fun c => c.isAlphanum || c = '.' || c = '_' || c = '%' || c = '+' || c = '-') 1 none,
   chr '@',
   .cls (fun c => c.isAlphanum || c = '.' || c = '-') 1 none,
   chr '.',
   .cls Char.isAlpha 2 none,
   .bnd]

/-- `\b(?:\+?254|0)(?:7|1)\d{8}\b` -/
def phonePat : List RItem :=
  [.bnd,
   .alt [.cls (fun c => c = '+') 0 (some 1), chr '2', chr '5', chr '4'] [chr '0'],
   .alt [chr '7'] [chr '1'],
   .cls Char.isDigit 8 (some 8),
   .bnd]

/-- `\b\d{7,8}\b` -/
def nationalIdPat : List RItem :=
  [.bnd, .cls Char.isDigit 7 (some 8), .bnd]

/-- `\b[A-Za-z0-9]{6,9}\b` -/
def passportPat : List RItem :=
  [.bnd, .cls Char.isAlphanum 6 (some 9), .bnd]

/-- The `_PATTERNS` dict of `pii.py`, in its (insertion-order) iteration
order: email, phone, national_id, passport. -/
def piiPatterns : List (String × List RItem) :=
  [("email", emailPat), ("phone", phonePat),
   ("national_id", nationalIdPat), ("passport", passportPat)]

/-! ### `detect_pii` and `redact_pii` -/

/-- The `PIIMatch` dataclass of `pii.py`. -/
structure PIIMatch where
  kind : String
  «match» : String
  start : Nat
  «end» : Nat
  deriving Repr, DecidableEq

/-- Python slice `text[a:b]` for non-negative bounds (Python clamps both
bounds to the text length; truncated `Nat` subtraction at call sites plays
the role of Python's `max(0, ·)`). -/
def pySlice (l : List Char) (a b : Nat) : List Char := (l.take b).drop a

/-- Python's `needle in hay` substring test. -/
def containsSub (hay needle : List Char) : Bool :=
  (List.range (hay.length + 1)).any fun i => needle.isPrefixOf (hay.drop i)

/-- The suppression test of `detect_pii` for `national_id`/`passport`
matches: the window `text[max(0, start-8) : end+8]` contains `http` or `@`. -/
def suppressed (t : List Char) (s e : Nat) : Bool :=
  let surrounding := pySlice t (s - 8) (e + 8)
  containsSub surrounding "http".toList || containsSub surrounding "@".toList

/-- The matches one pattern contributes to `detect_pii`'s result: every
`finditer` hit, minus — for `national_id`/`passport` only — the suppressed
ones. -/
def kindMatches (kind : String) (pat : List RItem) (t : List Char) : List PIIMatch :=
  (finditer pat t).filterMap fun se =>
    if kind = "national_id" || kind = "passport" then
      if suppressed t se.1 se.2 then none
      else some ⟨kind, (pySlice t se.1 se.2).asString, se.1, se.2⟩
    else some ⟨kind, (pySlice t se.1 se.2).asString, se.1, se.2⟩

/-- `detect_pii(text)`: iterate the `_PATTERNS` dict in insertion order,
collect `finditer` matches of each kind, discarding `national_id`/`passport`
hits whose surrounding window contains `http` or `@`. -/
def detect_pii (text : String) : List PIIMatch :=
  if text = "" then []
  else (piiPatterns.map fun kp => kindMatches kp.1 kp.2 text.toList).flatten

/-- The placeholder `f"<{m.kind.upper()}_REDACTED>"` (`str.upper` mapped
characterwise; the kinds are ASCII). -/
def placeholder (kind : String) : String :=
  "<" ++ (kind.toList.map Char.toUpper).asString ++ "_REDACTED>"

/-- Insert into a list already sorted descending by `start`, after every
element with a `start` at least as large (so the overall sort is stable). -/
def insertByStartDesc (m : PIIMatch) : List PIIMatch → List PIIMatch
  | [] => [m]
  | x :: xs => if m.start ≤ x.start then x :: insertByStartDesc m xs else m :: x :: xs

/-- Python `sorted(matches, key=lambda x: x.start, reverse=True)`: the
stable descending sort by `start`. -/
def sortByStartDesc (ms : List PIIMatch) : List PIIMatch :=
  ms.foldl (fun acc m => insertByStartDesc m acc) []

/-- `redact_pii(text, matches)`: replace each match span, processing matches
in descending `start` order, with `redacted[:m.start] + placeholder +
redacted[m.end:]` on the *current* (already partially redacted) string. -/
def redact_pii (text : String) («matches» : Option (List PIIMatch)) : String :=
  if text = "" then text
  else
    let ms := match «matches» with | some l => l | none => detect_pii text
    if ms.isEmpty then text
    else
      ((sortByStartDesc ms).foldl (fun red m =>
        red.take m.start ++ (placeholder m.kind).toList ++ red.drop m.«end»)
        text.toList).asString

/-! ## Message-history manager (`app/core/orchestrator.py`) -/

/-- A pydantic-ai `ModelMessage` as the orchestrator observes it: the `kind`
discriminator, the optional `id` attribute that `combine_message_histories`
probes with `hasattr` (`none` models a message object without one), and the
payload (abstracted to a string — the functions under study never inspect
it). -/
structure ModelMessage where
  kind : String
  id : Option Nat
  content : String
  deriving Repr, DecidableEq

/-- `combine_message_histories(existing_history, new_messages)`: collect the
ids present on messages of the existing history, start from the existing
history, and append each new message whose id is absent or not yet seen. -/
def combine_message_histories (existing_history new_messages : List ModelMessage) :
    List ModelMessage :=
  let existing_ids := existing_history.foldl
    (fun s msg => match msg.id with | some i => s ++ [i] | none => s) []
  let combined := existing_history
  combined ++ new_messages.filter fun msg =>
    match msg.id with
    | none => true
    | some i => !(existing_ids.contains i)

/-- The identity set of a history: the ids present on its messages. -/
def identitySet (l : List ModelMessage) : List Nat := l.filterMap (·.id)

/-- The merge contract as claim C5 states it: the existing history in its
original order followed, in their original order, by exactly those new
messages whose identity is absent or not already in the identity set of the
existing history. -/
def combine_claim (existing new : List ModelMessage) : List ModelMessage :=
  existing ++ new.filter fun msg =>
    match msg.id with
    | none => true
    | some i => !(identitySet existing).contains i

/-- Python `lst[-k:]` for a natural `k`: the last `k` elements when `k > 0`,
but the whole list when `k = 0` (Python `lst[-0:]` is `lst[0:]`). -/
def pySliceLast (k : Nat) (l : List α) : List α :=
  if k = 0 then l else l.drop (l.length - k)

/-- `truncate_message_history(message_history, max_messages)`: unchanged if
it already fits, otherwise all `system`-kind messages followed by the slice
`other_messages[-max_messages:]`. -/
def truncate_message_history (message_history : List ModelMessage) (max_messages : Nat) :
    List ModelMessage :=
  if message_history.length ≤ max_messages then message_history
  else
    let system_messages := message_history.filter fun msg => msg.kind == "system"
    let other_messages := message_history.filter fun msg => msg.kind != "system"
    let recent_messages := pySliceLast max_messages other_messages
    system_messages ++ recent_messages

/-- The truncation contract as claim C2 states it: unchanged when the
history fits; otherwise exactly the system messages followed by the
`min(n - k, m)` most recent non-system messages (`List.drop (len - m)`
keeps exactly `min (len, m)` trailing elements). -/
def truncate_claim (history : List ModelMessage) (m : Nat) : List ModelMessage :=
  if history.length ≤ m then history
  else
    let sys := history.filter fun msg => msg.kind == "system"
    let other := history.filter fun msg => msg.kind != "system"
    sys ++ other.drop (other.length - m)

/-! ## Indexing synchronizer (`app/core/rag/indexer.py`) -/

/-- A row of the `webpages` table, restricted to the columns the indexer
reads or writes. Timestamps are abstracted to `Nat` instants; nullable
columns are `Option`. -/
structure Webpage where
  id : Nat
  collection_id : String
  url : String
  title : Option String
  content_markdown : Option String
  last_crawled : Option Nat
  is_indexed : Bool
  indexed_at : Option Nat
  deriving Repr, DecidableEq

/-- One result dictionary of `get_unindexed_documents`. -/
structure WebpageData where
  id : Nat
  url : String
  title : String
  content : String
  last_crawled : Option Nat
  deriving Repr, DecidableEq

/-- `webpage.title or ""` (Python `or` maps both `None` and `""` to `""`;
for strings the two branches coincide). -/
def pyTitleOr : Option String → String
  | none => ""
  | some s => s

/-- The dictionary built for one webpage row. `content` is
`webpage.content_markdown`, non-`NULL` for every row the query returns
(`getD ""` is never the served value on those rows). -/
def toWebpageData (w : Webpage) : WebpageData :=
  { id := w.id, url := w.url, title := pyTitleOr w.title,
    content := w.content_markdown.getD "", last_crawled := w.last_crawled }

/-- `get_unindexed_documents(db, collection_id)`: the `SELECT` over
`webpages` with `collection_id == :c AND is_indexed == False AND
content_markdown IS NOT NULL` (SQLAlchemy `!= None` compiles to
`IS NOT NULL`), in table order, each row mapped to its dictionary.
A `SELECT` leaves the table untouched. -/
def get_unindexed_documents (db : List Webpage) (collection_id : String) :
    List WebpageData :=
  (db.filter fun w =>
    w.collection_id == collection_id && !w.is_indexed && w.content_markdown.isSome).map
    toWebpageData

/-- The selection contract as claim C6 states it: indexed flag false and
content non-empty. -/
def get_unindexed_claim (db : List Webpage) (collection_id : String) :
    List WebpageData :=
  (db.filter fun w =>
    w.collection_id == collection_id && !w.is_indexed &&
      w.content_markdown.isSome && !(w.content_markdown == some "")).map
    toWebpageData

/-- Fuelled helper for `toBatches`; each step consumes at least one id, so
any fuel of at least the list's length gives the full batch decomposition. -/
def toBatchesGo : Nat → List Nat → List (List Nat)
  | _, [] => []
  | 0, _ :: _ => []
  | fuel + 1, x :: xs => (x :: xs).take 100 :: toBatchesGo fuel ((x :: xs).drop 100)

/-- The sub-batches `document_ids[i:i+100]` for `i in range(0, len, 100)`
(`batch_size = 100` in the source). -/
def toBatches (ids : List Nat) : List (List Nat) := toBatchesGo ids.length ids

/-- The effect of one committed
`UPDATE webpages SET is_indexed = true, indexed_at = :now WHERE id IN :batch`. -/
def updateIsIndexed (db : List Webpage) (batch_ids : List Nat) (now : Nat) :
    List Webpage :=
  db.map fun w =>
    if batch_ids.contains w.id then { w with is_indexed := true, indexed_at := some now }
    else w

/-- The update-and-commit loop of `mark_documents_as_indexed`, with a
failure oracle: `failAt = some j` makes the `UPDATE`/commit of the `j`-th
sub-batch raise. The raise triggers the `except` block's `rollback`, which
discards only the current uncommitted sub-batch, so the `.error` state is
the table as of the last commit. -/
def markGo (now : Nat) (failAt : Option Nat) :
    List Webpage → List (List Nat) → Nat → Except (List Webpage) (List Webpage)
  | db, [], _ => .ok db
  | db, b :: bs, j =>
    if failAt == some j then .error db
    else markGo now failAt (updateIsIndexed db b now) bs (j + 1)

/-- `mark_documents_as_indexed(db, document_ids)` at time `now` under the
failure oracle `failAt`: returns immediately on an empty id list, otherwise
updates and commits sub-batches of at most 100 ids in order. `.ok` is the
normal return, `.error` the raise path (after the rollback). -/
def mark_documents_as_indexed (db : List Webpage) (document_ids : List Nat)
    (now : Nat) (failAt : Option Nat) : Except (List Webpage) (List Webpage) :=
  if document_ids.isEmpty then .ok db
  else markGo now failAt db (toBatches document_ids) 0

/-- Failure oracle for one `index_documents_by_collection` run: which of the
external calls inside the `try` raises (`setup_vector_store`,
`pipeline.run` — chunking, embedding, upsert —, `VectorStoreIndex(nodes)`,
or the `j`-th marking sub-batch), if any. -/
inductive RunFailure where
  | atSetup
  | atPipeline
  | atIndex
  | atMark (j : Nat)
  | noFailure
  deriving Repr, DecidableEq

/-- The `stats` dictionary `index_documents_by_collection` returns; the
wall-clock fields (`start_time`, `end_time`, `processing_time_seconds`) are
not modelled. -/
structure IndexStats where
  collection_id : String
  documents_processed : Nat
  documents_indexed : Nat
  status : String
  message : Option String
  error : Option String
  deriving Repr, DecidableEq

/-- `index_documents_by_collection(collection_id)` over a world made of the
`webpages` table and the vector store, the latter abstracted to the list of
doc ids whose chunk vectors have been upserted (`pipeline.run` upserts the
chunks of every selected document). `fail` is the failure oracle, `errText`
the raised exception's text, `now` the clock. The `try/except` returns the
failed stats without undoing already committed work; a raise in
`pipeline.run` may leave stray vectors behind but never touches the table. -/
def index_documents_by_collection (db : List Webpage) (vs : List Nat)
    (collection_id : String) (fail : RunFailure) (errText : String) (now : Nat) :
    IndexStats × List Webpage × List Nat :=
  let documents := get_unindexed_documents db collection_id
  if documents.isEmpty then
    ({ collection_id := collection_id, documents_processed := 0, documents_indexed := 0,
       status := "completed", message := some "No unindexed documents found",
       error := none }, db, vs)
  else
    let document_ids := documents.map (·.id)
    let failedStats := fun (processed : Nat) =>
      ({ collection_id := collection_id, documents_processed := processed,
         documents_indexed := 0, status := "failed", message := none,
         error := some errText } : IndexStats)
    match fail with
    | .atSetup => (failedStats 0, db, vs)
    | .atPipeline => (failedStats documents.length, db, vs)
    | .atIndex => (failedStats documents.length, db, vs ++ document_ids)
    | .atMark j =>
      (match mark_documents_as_indexed db document_ids now (some j) with
       | .error db1 => (failedStats documents.length, db1, vs ++ document_ids)
       | .ok db1 =>
         ({ collection_id := collection_id, documents_processed := documents.length,
            documents_indexed := document_ids.length, status := "completed",
            message := none, error := none }, db1, vs ++ document_ids))
    | .noFailure =>
      (match mark_documents_as_indexed db document_ids now none with
       | .error db1 => (failedStats documents.length, db1, vs ++ document_ids)
       | .ok db1 =>
         ({ collection_id := collection_id, documents_processed := documents.length,
            documents_indexed := document_ids.length, status := "completed",
            message := none, error := none }, db1, vs ++ document_ids))

/-! ## Chat endpoints (`app/api/endpoints/chat_endpoints.py`)

The endpoints delegate persistence to `ChatPersistenceService`
(`app/utils/chat_persistence.py`), a module that is not among the sources;
its operations are modelled from the spec (§4.4) below. -/

/-- A persisted chat session with its message log. -/
structure ChatSessionRow where
  session_id : String
  user_id : Option String
  messages : List ModelMessage
  deriving Repr, DecidableEq

/-- The session store. -/
abbrev ChatDB := List ChatSessionRow

/-- Modelled from the spec: `ChatPersistenceService.get_chat_by_session_id`
(`getBySessionId(sessionId) -> session | not-found`). -/
def get_chat_by_session_id (db : ChatDB) (sid : String) : Option ChatSessionRow :=
  db.find? fun s => s.session_id == sid

/-- Modelled from the spec: `ChatPersistenceService.create_chat_session`
(`createSession(userId?) -> sessionId` — generates a new unique id, supplied
here as the oracle `freshId`, and persists an empty session row). -/
def create_chat_session (db : ChatDB) (user_id : Option String) (freshId : String) :
    String × ChatDB :=
  (freshId, db ++ [⟨freshId, user_id, []⟩])

/-- Modelled from the spec:
`ChatPersistenceService.create_chat_session_with_id`
(`createSessionWithId(sessionId, userId?)` — persists a session under the
caller-supplied id). -/
def create_chat_session_with_id (db : ChatDB) (sid : String) (user_id : Option String) :
    ChatSessionRow × ChatDB :=
  (⟨sid, user_id, []⟩, db ++ [⟨sid, user_id, []⟩])

/-- Modelled from the spec: `ChatPersistenceService.load_messages`
(`loadMessages(sessionId)` — the session's messages in ordinal order). -/
def load_messages (db : ChatDB) (sid : String) : List ModelMessage :=
  match get_chat_by_session_id db sid with
  | some s => s.messages
  | none => []

/-- Modelled from the spec: `ChatPersistenceService.save_messages`
(`saveMessages(sessionId, messages) -> success boolean` — appends the
messages to the session's log; `saveOk = false` is the oracle for a
persistence failure, on which it reports `false` without appending). -/
def save_messages (db : ChatDB) (sid : String) (msgs : List ModelMessage)
    (saveOk : Bool) : Bool × ChatDB :=
  if !saveOk then (false, db)
  else
    (true, db.map fun s =>
      if s.session_id == sid then { s with messages := s.messages ++ msgs } else s)

/-- Modelled from the spec: `ChatPersistenceService.delete_chat_session`
(`deleteSession(sessionId) -> success boolean` — cascading delete of the
session and its messages; returns `false`, not an error, if the session did
not exist). -/
def delete_chat_session (db : ChatDB) (sid : String) : Bool × ChatDB :=
  if (db.find? fun s => s.session_id == sid).isSome then
    (true, db.filter fun s => s.session_id != sid)
  else (false, db)

/-- The structured `Output` of a run of the agent. The `confidence` float is
abstracted to an opaque numeric token. -/
structure AgentOutput where
  answer : String
  sources : List String
  confidence : Nat
  retriever_type : String
  deriving Repr, DecidableEq

/-- The result of `agent.run_sync(message)`: the structured output plus the
`all_messages()` / `new_messages()` transcript views. The LLM is an opaque
external service, so runs are supplied by an oracle. -/
structure AgentRun where
  output : AgentOutput
  all_messages : List ModelMessage
  new_messages : List ModelMessage
  deriving Repr, DecidableEq

/-- `fastapi.HTTPException`. -/
structure HTTPError where
  status_code : Nat
  detail : String
  deriving Repr, DecidableEq

/-- The request body of `POST /chat/` (metadata omitted: unused). -/
structure ChatRequest where
  message : String
  session_id : Option String
  user_id : Option String
  deriving Repr, DecidableEq

/-- The `ChatResponse` body. -/
structure ChatResponse where
  session_id : String
  answer : String
  sources : List String
  confidence : Nat
  retriever_type : String
  trace_id : Option String
  deriving Repr, DecidableEq

/-- Python truthiness of an optional string: `not session_id` holds for both
`None` and `""`. -/
def pyFalsyStr : Option String → Bool
  | none => true
  | some s => s == ""

/-- `process_chat(request)`: session resolution (new session when no id is
supplied; recovery by `create_chat_session_with_id` when the supplied id is
unknown; otherwise load of the prior messages), then the `try` block —
history-driven agent construction (`if not message_history` is also true for
an empty loaded list; histories longer than 20 are truncated to 20), the
agent call (`agent = Except.error e` models `run_sync` raising `e`, turned
into a 500 by the `except Exception` handler; the explicit save-failure 500
passes through `except HTTPException: raise`), the save of
`all_messages()` for a new session or `new_messages()` for a continued one,
and the response. `freshId` and `traceId` are the uuid oracles. -/
def process_chat (db : ChatDB) (request : ChatRequest) (freshId : String)
    (traceId : String)
    (agent : Option (List ModelMessage) → String → Except String AgentRun)
    (saveOk : Bool) : Except HTTPError (ChatResponse × ChatDB) :=
  let is_new_session := pyFalsyStr request.session_id
  let resolved : String × Option (List ModelMessage) × ChatDB :=
    if is_new_session then
      let r := create_chat_session db request.user_id freshId
      (r.1, none, r.2)
    else
      let sid := request.session_id.getD ""
      match get_chat_by_session_id db sid with
      | none =>
        let r := create_chat_session_with_id db sid request.user_id
        (sid, none, r.2)
      | some _ => (sid, some (load_messages db sid), db)
  let session_id := resolved.1
  let message_history := resolved.2.1
  let db1 := resolved.2.2
  let historyArg : Option (List ModelMessage) :=
    match message_history with
    | none => none
    | some h =>
      if h.isEmpty then none
      else if h.length > 20 then some (truncate_message_history h 20) else some h
  match agent historyArg request.message with
  | .error e => .error ⟨500, "Internal server error: " ++ e⟩
  | .ok result =>
    let toSave := if is_new_session then result.all_messages else result.new_messages
    let saved := save_messages db1 session_id toSave saveOk
    if !saved.1 then .error ⟨500, "Failed to save chat messages"⟩
    else
      .ok ({ session_id := session_id, answer := result.output.answer,
             sources := result.output.sources,
             confidence := result.output.confidence,
             retriever_type := result.output.retriever_type,
             trace_id := some traceId }, saved.2)

/-- `delete_chat` (`DELETE /chat/{session_id}`): the whole body sits in a
`try` whose only handler is `except Exception`, which re-raises
`HTTPException(500, f"Internal server error: {str(e)}")`. The explicitly
raised 404 `HTTPException` is itself an `Exception` (and, unlike the other
two endpoints of the file, there is no `except HTTPException: raise` arm
before the blanket handler), so the not-found outcome is also re-raised as
a 500; `str` of a fastapi `HTTPException` is `f"{status_code}: {detail}"`.
`persistFail = some msg` is the oracle for `delete_chat_session` raising
with text `msg`. -/
def delete_chat (db : ChatDB) (session_id : String) (persistFail : Option String) :
    Except HTTPError (String × ChatDB) :=
  match persistFail with
  | some msg => .error ⟨500, "Internal server error: " ++ msg⟩
  | none =>
    match delete_chat_session db session_id with
    | (true, db1) => .ok ("Chat session " ++ session_id ++ " deleted successfully", db1)
    | (false, _) =>
      .error ⟨500, "Internal server error: 404: Chat session " ++ session_id ++
        " not found"⟩

/-! ## Lemmas: structure of `detect_pii` -/

/-- `detect_pii` is the concatenation of the per-kind match blocks, in the
dict's insertion order. -/
lemma detect_pii_blocks (text : String) :
    detect_pii text =
      kindMatches "email" emailPat text.toList ++
      kindMatches "phone" phonePat text.toList ++
      kindMatches "national_id" nationalIdPat text.toList ++
      kindMatches "passport" passportPat text.toList := by
  by_cases h : text = ""
  · subst h; decide
  · simp [detect_pii, piiPatterns, h]

/-- What membership in a per-kind block implies: the recorded kind is the
block's kind, the offsets come from a `finditer` hit, and the recorded text
is the corresponding slice. -/
lemma kindMatches_mem {k : String} {pat : List RItem} {t : List Char} {pm : PIIMatch}
    (h : pm ∈ kindMatches k pat t) :
    pm.kind = k ∧ (pm.start, pm.«end») ∈ finditer pat t ∧
      pm.«match» = (pySlice t pm.start pm.«end»).asString := by
  simp only [kindMatches, List.mem_filterMap] at h
  obtain ⟨se, hse, hf⟩ := h
  have hse' : (se.1, se.2) ∈ finditer pat t := by simpa using hse
  split_ifs at hf with h1 h2
  all_goals first
    | exact Option.noConfusion hf
    | · obtain rfl := Option.some.inj hf
        exact ⟨rfl, hse', rfl⟩

/-- For kinds other than `national_id`/`passport`, every `finditer` hit is
kept. -/
lemma kindMatches_mem_of_finditer {k : String} {pat : List RItem} {t : List Char}
    {s e : Nat} (hk1 : k ≠ "national_id") (hk2 : k ≠ "passport")
    (h : (s, e) ∈ finditer pat t) :
    (⟨k, (pySlice t s e).asString, s, e⟩ : PIIMatch) ∈ kindMatches k pat t := by
  simp only [kindMatches, List.mem_filterMap]
  exact ⟨(s, e), h, by simp [hk1, hk2]⟩

/-- A `national_id`/`passport` block never contains a match at offsets whose
surrounding window triggers the suppression. -/
lemma kindMatches_suppressed_not_mem {k : String} {pat : List RItem} {t : List Char}
    {s e : Nat} {m : String} (hk : k = "national_id" ∨ k = "passport")
    (hs : suppressed t s e = true) :
    (⟨k, m, s, e⟩ : PIIMatch) ∉ kindMatches k pat t := by
  intro h
  simp only [kindMatches, List.mem_filterMap] at h
  obtain ⟨se, hse, hf⟩ := h
  split_ifs at hf with h1 h2 <;>
    first
      | exact Option.noConfusion hf
      | exact h1 (by rcases hk with rfl | rfl <;> simp)
      | (simp only [Option.some.injEq, PIIMatch.mk.injEq, true_and] at hf
         obtain ⟨-, rfl, rfl⟩ := hf
         exact h2 hs)

/-- Every element of `finditerGo` starting at `i` has start offset at least
`i`, and the start offsets are strictly increasing. -/
lemma finditerGo_bound_pairwise (pat : List RItem) (t : List Char) :
    ∀ (fuel i : Nat),
      (∀ x ∈ finditerGo pat t i fuel, i ≤ x.1) ∧
      List.Pairwise (fun a b : Nat × Nat => a.1 < b.1) (finditerGo pat t i fuel) := by
  intro fuel
  induction fuel with
  | zero => intro i; simp [finditerGo]
  | succ n ih =>
    intro i
    simp only [finditerGo]
    by_cases hlen : i > t.length
    · simp [hlen]
    · simp only [hlen, if_false]
      cases hm : matchItems 1000 pat t i with
      | none =>
        refine ⟨fun x hx => ?_, (ih (i + 1)).2⟩
        exact Nat.le_of_succ_le ((ih (i + 1)).1 x hx)
      | some e =>
        have hii' : i + 1 ≤ if i < e then e else i + 1 := by
          split <;> omega
        constructor
        · intro x hx
          rcases List.mem_cons.mp hx with rfl | hx'
          · exact Nat.le_refl i
          · exact Nat.le_of_succ_le
              (Nat.le_trans hii' ((ih _).1 x hx'))
        · rw [List.pairwise_cons]
          refine ⟨fun a ha => ?_, (ih _).2⟩
          have := (ih _).1 a ha
          omega

/-- `filterMap` by a start-preserving partial function keeps the strict
ordering of start offsets. -/
lemma pairwise_filterMap_start {f : Nat × Nat → Option PIIMatch}
    (hf : ∀ se pm, f se = some pm → pm.start = se.1) :
    ∀ {l : List (Nat × Nat)}, List.Pairwise (fun a b => a.1 < b.1) l →
      List.Pairwise (fun a b : PIIMatch => a.start < b.start) (l.filterMap f) := by
  intro l hl
  induction hl with
  | nil => simp
  | @cons a l ha _ ih =>
    rw [List.filterMap_cons]
    cases hfa : f a with
    | none => exact ih
    | some pm =>
      rw [List.pairwise_cons]
      refine ⟨fun q hq => ?_, ih⟩
      obtain ⟨se, hse, hfse⟩ := List.mem_filterMap.mp hq
      have h1 := hf _ _ hfa
      have h2 := hf _ _ hfse
      have h3 := ha se hse
      omega

/-- Within one kind's block the matches are strictly sorted by start
offset. -/
lemma kindMatches_pairwise (k : String) (pat : List RItem) (t : List Char) :
    List.Pairwise (fun a b : PIIMatch => a.start < b.start) (kindMatches k pat t) := by
  have hp := (finditerGo_bound_pairwise pat t (t.length + 1) 0).2
  refine pairwise_filterMap_start (fun se pm hf => ?_) hp
  split_ifs at hf <;>
    first
      | exact Option.noConfusion hf
      | (obtain rfl := Option.some.inj hf; rfl)

/-! ## Claim C10 -/

/-- C10: `detect_pii` returns its matches grouped by pattern kind in the
fixed `_PATTERNS` iteration order email, phone, national_id, passport
(strictly sorted by start offset only within each kind), not globally
sorted by start offset: on `"1234567 xxxxx bob@x.com"` the email match
(offset 14) precedes the national_id match (offset 0), and the single
7-digit token that survives the URL/email suppression is reported twice —
once as national_id and once as passport — with identical start and end
offsets over the same span. -/
theorem detect_pii_grouped_by_kind :
    (∀ text : String, detect_pii text =
        kindMatches "email" emailPat text.toList ++
        kindMatches "phone" phonePat text.toList ++
        kindMatches "national_id" nationalIdPat text.toList ++
        kindMatches "passport" passportPat text.toList) ∧
    (∀ text : String,
      (detect_pii text).Pairwise fun a b => a.kind = b.kind → a.start < b.start) ∧
    detect_pii "1234567 xxxxx bob@x.com" =
      [⟨"email", "bob@x.com", 14, 23⟩,
       ⟨"national_id", "1234567", 0, 7⟩,
       ⟨"passport", "1234567", 0, 7⟩] := by
  refine ⟨detect_pii_blocks, fun text => ?_, by decide⟩
  rw [detect_pii_blocks]
  have hw : ∀ (k : String) (pat : List RItem),
      (kindMatches k pat text.toList).Pairwise
        (fun a b : PIIMatch => a.kind = b.kind → a.start < b.start) := by
    intro k pat
    refine List.Pairwise.imp ?_ (kindMatches_pairwise k pat text.toList)
    exact fun h _ => h
  have hcross : ∀ (k1 k2 : String) (p1 p2 : List RItem), k1 ≠ k2 →
      ∀ a ∈ kindMatches k1 p1 text.toList, ∀ b ∈ kindMatches k2 p2 text.toList,
        a.kind = b.kind → a.start < b.start := by
    intro k1 k2 p1 p2 hne a ha b hb hab
    exact absurd (((kindMatches_mem ha).1.symm.trans hab).trans (kindMatches_mem hb).1) hne
  rw [List.append_assoc, List.append_assoc]
  refine List.pairwise_append.mpr ⟨hw _ _,
    List.pairwise_append.mpr ⟨hw _ _,
      List.pairwise_append.mpr ⟨hw _ _, hw _ _, hcross _ _ _ _ (by decide)⟩, ?_⟩, ?_⟩
  · intro a ha b hb
    rcases List.mem_append.mp hb with hb' | hb'
    · exact hcross _ _ _ _ (by decide) a ha b hb'
    · exact hcross _ _ _ _ (by decide) a ha b hb'
  · intro a ha b hb
    rcases List.mem_append.mp hb with hb' | hb'
    · exact hcross _ _ _ _ (by decide) a ha b hb'
    · rcases List.mem_append.mp hb' with hb'' | hb''
      · exact hcross _ _ _ _ (by decide) a ha b hb''
      · exact hcross _ _ _ _ (by decide) a ha b hb''

/-! ## Claim C3 -/

/-- C3 (code bug): on the spec's own example text — also the input of the
repository's `test_redact` — the 8-digit token `12345678` is matched by
both the national_id and the passport pattern over the same span, so the
redaction rewrites that span twice: the second (passport) rewrite clobbers
the `<NATIONAL_ID_REDACTED>` placeholder just inserted, leaving
`<PASSPORT_REDACTED>L_ID_REDACTED>`. The result therefore contains
`<PHONE_REDACTED>`, `<EMAIL_REDACTED>` and none of the original literals,
but does NOT contain `<NATIONAL_ID_REDACTED>`, contradicting the claim and
the repository's own test. -/
theorem redact_pii_example_drops_national_id :
    redact_pii "ID 12345678, phone 0712345678, email user@example.com" none =
      "ID <PASSPORT_REDACTED>L_ID_REDACTED>, phone <PHONE_REDACTED>, email <EMAIL_REDACTED>" ∧
    containsSub
      ("ID <PASSPORT_REDACTED>L_ID_REDACTED>, phone <PHONE_REDACTED>, email <EMAIL_REDACTED>").toList
      "<NATIONAL_ID_REDACTED>".toList = false ∧
    containsSub
      ("ID <PASSPORT_REDACTED>L_ID_REDACTED>, phone <PHONE_REDACTED>, email <EMAIL_REDACTED>").toList
      "<PHONE_REDACTED>".toList = true ∧
    containsSub
      ("ID <PASSPORT_REDACTED>L_ID_REDACTED>, phone <PHONE_REDACTED>, email <EMAIL_REDACTED>").toList
      "<EMAIL_REDACTED>".toList = true ∧
    containsSub
      ("ID <PASSPORT_REDACTED>L_ID_REDACTED>, phone <PHONE_REDACTED>, email <EMAIL_REDACTED>").toList
      "12345678".toList = false ∧
    containsSub
      ("ID <PASSPORT_REDACTED>L_ID_REDACTED>, phone <PHONE_REDACTED>, email <EMAIL_REDACTED>").toList
      "0712345678".toList = false ∧
    containsSub
      ("ID <PASSPORT_REDACTED>L_ID_REDACTED>, phone <PHONE_REDACTED>, email <EMAIL_REDACTED>").toList
      "user@example.com".toList = false := by
  exact ⟨by decide, by decide, by decide, by decide, by decide, by decide, by decide⟩

/-! ## Claim C7 -/

/-- C7: for every input text, a national_id or passport regex match is
discarded from `detect_pii`'s result whenever the window
`text[max(0, start-8) : end+8]` contains `http` or `@` (no match of those
kinds at such offsets appears in the result, whatever its recorded text),
while email and phone `finditer` matches are always reported — never
subject to the window suppression. -/
theorem detect_pii_window_suppression :
    (∀ (text : String) (s e : Nat) (m : String),
        suppressed text.toList s e = true →
          (⟨"national_id", m, s, e⟩ : PIIMatch) ∉ detect_pii text ∧
          (⟨"passport", m, s, e⟩ : PIIMatch) ∉ detect_pii text) ∧
    (∀ (text : String) (s e : Nat),
        (s, e) ∈ finditer emailPat text.toList →
          (⟨"email", (pySlice text.toList s e).asString, s, e⟩ : PIIMatch) ∈
            detect_pii text) ∧
    (∀ (text : String) (s e : Nat),
        (s, e) ∈ finditer phonePat text.toList →
          (⟨"phone", (pySlice text.toList s e).asString, s, e⟩ : PIIMatch) ∈
            detect_pii text) := by
  refine ⟨fun text s e m hs => ⟨?_, ?_⟩, fun text s e h => ?_, fun text s e h => ?_⟩
  · intro hmem
    rw [detect_pii_blocks] at hmem
    simp only [List.mem_append] at hmem
    rcases hmem with ((h | h) | h) | h
    · have hk := (kindMatches_mem h).1
      simp at hk
    · have hk := (kindMatches_mem h).1
      simp at hk
    · exact kindMatches_suppressed_not_mem (Or.inl rfl) hs h
    · have hk := (kindMatches_mem h).1
      simp at hk
  · intro hmem
    rw [detect_pii_blocks] at hmem
    simp only [List.mem_append] at hmem
    rcases hmem with ((h | h) | h) | h
    · have hk := (kindMatches_mem h).1
      simp at hk
    · have hk := (kindMatches_mem h).1
      simp at hk
    · have hk := (kindMatches_mem h).1
      simp at hk
    · exact kindMatches_suppressed_not_mem (Or.inr rfl) hs h
  · rw [detect_pii_blocks]
    simp only [List.mem_append]
    exact Or.inl (Or.inl (Or.inl
      (kindMatches_mem_of_finditer (by decide) (by decide) h)))
  · rw [detect_pii_blocks]
    simp only [List.mem_append]
    exact Or.inl (Or.inl (Or.inr
      (kindMatches_mem_of_finditer (by decide) (by decide) h)))

/-- Witness for C7 at concrete inputs: a 7-digit token whose window
contains `@` is reported neither as national_id nor as passport, while a
concrete email match and a concrete phone match are reported. -/
theorem detect_pii_window_suppression_witness :
    (suppressed ("1234567 bob@x.com").toList 0 7 = true ∧
      (⟨"national_id", "1234567", 0, 7⟩ : PIIMatch) ∉ detect_pii "1234567 bob@x.com" ∧
      (⟨"passport", "1234567", 0, 7⟩ : PIIMatch) ∉ detect_pii "1234567 bob@x.com") ∧
    ((14, 23) ∈ finditer emailPat ("1234567 xxxxx bob@x.com").toList ∧
      (⟨"email", "bob@x.com", 14, 23⟩ : PIIMatch) ∈ detect_pii "1234567 xxxxx bob@x.com") ∧
    ((5, 15) ∈ finditer phonePat ("call 0712345678 now").toList ∧
      (⟨"phone", "0712345678", 5, 15⟩ : PIIMatch) ∈ detect_pii "call 0712345678 now") := by
  have h1 := detect_pii_window_suppression.1 "1234567 bob@x.com" 0 7 "1234567" (by decide)
  have h2 := detect_pii_window_suppression.2.1 "1234567 xxxxx bob@x.com" 14 23 (by decide)
  have h3 := detect_pii_window_suppression.2.2 "call 0712345678 now" 5 15 (by decide)
  refine ⟨⟨by decide, h1.1, h1.2⟩, ⟨by decide, ?_⟩, ⟨by decide, ?_⟩⟩
  · exact (by decide :
      (pySlice ("1234567 xxxxx bob@x.com").toList 14 23).asString = "bob@x.com") ▸ h2
  · exact (by decide :
      (pySlice ("call 0712345678 now").toList 5 15).asString = "0712345678") ▸ h3

/-! ## Claim C2 -/

/-- Counterexample to C2 at `m = 0`: Python's `other_messages[-0:]` slice is
the whole list, so a one-message history is returned in full although the
claim (`for every m ≥ 0`) demands `min(n-k, 0) = 0` retained non-system
messages. -/
theorem truncate_message_history_zero_counterexample :
    truncate_message_history [⟨"user", none, "hi"⟩] 0 = [⟨"user", none, "hi"⟩] ∧
    truncate_claim [⟨"user", none, "hi"⟩] 0 = [] ∧
    truncate_message_history [⟨"user", none, "hi"⟩] 0 ≠
      truncate_claim [⟨"user", none, "hi"⟩] 0 :=
  ⟨by decide, by decide, by decide⟩

/-- C2 (amended): for every history and every `m ≥ 1`,
`truncate_message_history` returns the history unchanged when `n ≤ m` and
otherwise exactly the `k` system messages followed by the `min(n-k, m)`
most recent non-system messages, each part in original relative order —
i.e. it agrees with `truncate_claim`. At `m = 0` the code instead keeps
every non-system message, because the Python slice `[-0:]` is the whole
list. -/
theorem truncate_message_history_matches_claim (history : List ModelMessage)
    (m : Nat) (hm : 1 ≤ m) :
    truncate_message_history history m = truncate_claim history m := by
  have hne : m ≠ 0 := by omega
  simp only [truncate_message_history, truncate_claim, pySliceLast, hne, if_false]

/-- Witness for the amended C2 at a concrete over-long history and `m = 2`. -/
theorem truncate_message_history_matches_claim_witness :
    1 ≤ 2 ∧
    truncate_message_history
      [⟨"user", none, "a"⟩, ⟨"system", none, "s"⟩,
       ⟨"assistant", none, "b"⟩, ⟨"user", none, "c"⟩] 2 =
    truncate_claim
      [⟨"user", none, "a"⟩, ⟨"system", none, "s"⟩,
       ⟨"assistant", none, "b"⟩, ⟨"user", none, "c"⟩] 2 :=
  ⟨by decide, truncate_message_history_matches_claim _ 2 (by decide)⟩

/-! ## Claim C5 -/

/-- The id-collecting `foldl` of `combine_message_histories` computes the
identity set appended to the accumulator. -/
lemma foldl_collect_ids (l : List ModelMessage) :
    ∀ acc, l.foldl
        (fun s msg => match msg.id with | some i => s ++ [i] | none => s) acc
      = acc ++ l.filterMap (·.id) := by
  induction l with
  | nil => intro acc; simp
  | cons x xs ih =>
    intro acc
    cases hx : x.id with
    | none => simp [hx, List.filterMap_cons, ih]
    | some i => simp [hx, List.filterMap_cons, ih]

/-- C5: `combine_message_histories` returns the existing history in its
original order followed, in their original order, by exactly those new
messages whose identity is absent (always appended) or not already in the
identity set of the existing history. (Both inputs are only read; the
embedding of the function is pure, as the source builds a fresh list.) -/
theorem combine_message_histories_matches_claim
    (existing_history new_messages : List ModelMessage) :
    combine_message_histories existing_history new_messages =
      combine_claim existing_history new_messages := by
  simp only [combine_message_histories, combine_claim, identitySet,
    foldl_collect_ids, List.nil_append]

/-! ## Claim C6 -/

/-- Counterexample to C6: a row whose `content_markdown` is the empty
string (non-`NULL`) is selected by the code — the query tests
`IS NOT NULL`, not non-emptiness as the claim states. -/
theorem get_unindexed_documents_empty_content_counterexample :
    get_unindexed_documents [⟨1, "c", "u", none, some "", none, false, none⟩] "c" =
      [⟨1, "u", "", "", none⟩] ∧
    get_unindexed_claim [⟨1, "c", "u", none, some "", none, false, none⟩] "c" = [] ∧
    get_unindexed_documents [⟨1, "c", "u", none, some "", none, false, none⟩] "c" ≠
      get_unindexed_claim [⟨1, "c", "u", none, some "", none, false, none⟩] "c" :=
  ⟨by decide, by decide, by decide⟩

/-- C6 (amended): `get_unindexed_documents(db, collectionId)` returns
exactly the records of the given collection whose indexed flag is false and
whose content is non-`NULL` (an empty-string content is still selected),
mapped to their result dictionaries; the `SELECT` is embedded as a pure
function of the table — it mutates nothing. -/
theorem get_unindexed_documents_characterization (db : List Webpage)
    (c : String) (d : WebpageData) :
    d ∈ get_unindexed_documents db c ↔
      ∃ w ∈ db, w.collection_id = c ∧ w.is_indexed = false ∧
        w.content_markdown ≠ none ∧ d = toWebpageData w := by
  simp only [get_unindexed_documents, List.mem_map, List.mem_filter,
    Bool.and_eq_true, beq_iff_eq, Bool.not_eq_true', Option.isSome_iff_ne_none]
  constructor
  · rintro ⟨w, ⟨hw, ⟨h1, h2⟩, h3⟩, rfl⟩
    exact ⟨w, hw, h1, h2, h3, rfl⟩
  · rintro ⟨w, hw, h1, h2, h3, rfl⟩
    exact ⟨w, ⟨hw, ⟨h1, h2⟩, h3⟩, rfl⟩

/-! ## Lemmas: batched marking -/

lemma contains_append (l1 l2 : List Nat) (x : Nat) :
    (l1 ++ l2).contains x = (l1.contains x || l2.contains x) := by
  rw [Bool.eq_iff_iff]
  simp [List.mem_append]

lemma updateIsIndexed_nil (db : List Webpage) (now : Nat) :
    updateIsIndexed db [] now = db := by
  simp [updateIsIndexed]

/-- Marking two id sets in sequence is marking their union (the update is
idempotent: both writes set the same flag and timestamp). -/
lemma updateIsIndexed_append (db : List Webpage) (b s : List Nat) (now : Nat) :
    updateIsIndexed (updateIsIndexed db b now) s now =
      updateIsIndexed db (b ++ s) now := by
  simp only [updateIsIndexed, List.map_map]
  refine List.map_congr_left fun w _ => ?_
  by_cases hb : w.id ∈ b <;> by_cases hs : w.id ∈ s <;>
    simp [hb, hs, contains_append]

lemma markGo_none (now : Nat) (bs : List (List Nat)) :
    ∀ (db : List Webpage) (k : Nat),
      markGo now none db bs k = .ok (updateIsIndexed db bs.flatten now) := by
  induction bs with
  | nil => intro db k; simp [markGo, updateIsIndexed_nil]
  | cons b bs ih =>
    intro db k
    rw [markGo, if_neg (by exact Bool.false_ne_true), ih, updateIsIndexed_append,
      List.flatten_cons]

lemma markGo_fail (now : Nat) (bs : List (List Nat)) :
    ∀ (db : List Webpage) (k d : Nat), d < bs.length →
      markGo now (some (k + d)) db bs k =
        .error (updateIsIndexed db ((bs.take d).flatten) now) := by
  induction bs with
  | nil => intro db k d hd; simp at hd
  | cons b bs ih =>
    intro db k d hd
    cases d with
    | zero =>
      rw [markGo, if_pos (by simp)]
      simp [updateIsIndexed_nil]
    | succ e =>
      have hne : ((some (k + (e + 1)) : Option Nat) == some k) = false := by
        have h : k + (e + 1) ≠ k := by omega
        simp [h]
      rw [markGo, if_neg (by simp [hne]),
        show k + (e + 1) = (k + 1) + e by omega,
        ih _ (k + 1) e (by simpa using hd),
        updateIsIndexed_append, List.take_succ_cons, List.flatten_cons]

lemma markGo_miss (now : Nat) (bs : List (List Nat)) :
    ∀ (db : List Webpage) (k j : Nat), k + bs.length ≤ j →
      markGo now (some j) db bs k = .ok (updateIsIndexed db bs.flatten now) := by
  induction bs with
  | nil => intro db k j h; simp [markGo, updateIsIndexed_nil]
  | cons b bs ih =>
    intro db k j h
    have hne : ((some j : Option Nat) == some k) = false := by
      have hjk : j ≠ k := by simp at h; omega
      simp [hjk]
    rw [markGo, if_neg (by simp [hne]),
      ih _ (k + 1) j (by simp at h ⊢; omega),
      updateIsIndexed_append, List.flatten_cons]

lemma toBatchesGo_flatten :
    ∀ (fuel : Nat) (l : List Nat), l.length ≤ fuel →
      (toBatchesGo fuel l).flatten = l := by
  intro fuel
  induction fuel with
  | zero =>
    intro l h
    cases l with
    | nil => simp [toBatchesGo]
    | cons x xs => simp at h
  | succ n ih =>
    intro l h
    cases l with
    | nil => simp [toBatchesGo]
    | cons x xs =>
      simp only [toBatchesGo, List.flatten_cons]
      rw [ih _ (by simp [List.length_drop] at h ⊢; omega)]
      exact List.take_append_drop 100 (x :: xs)

lemma toBatches_flatten (ids : List Nat) : (toBatches ids).flatten = ids :=
  toBatchesGo_flatten _ _ (Nat.le_refl _)

lemma toBatchesGo_length_le :
    ∀ (fuel : Nat) (l b : List Nat), b ∈ toBatchesGo fuel l → b.length ≤ 100 := by
  intro fuel
  induction fuel with
  | zero =>
    intro l b hb
    cases l with
    | nil => simp [toBatchesGo] at hb
    | cons x xs => simp [toBatchesGo] at hb
  | succ n ih =>
    intro l b hb
    cases l with
    | nil => simp [toBatchesGo] at hb
    | cons x xs =>
      simp only [toBatchesGo, List.mem_cons] at hb
      rcases hb with rfl | hb
      · rw [List.length_take]
        exact Nat.min_le_left _ _
      · exact ih _ _ hb

/-- After marking the ids `P`, the unindexed query selects exactly the rows
it would have selected before minus those whose id is in `P`. -/
lemma get_unindexed_updateIsIndexed (db : List Webpage) (P : List Nat)
    (now : Nat) (c : String) :
    get_unindexed_documents (updateIsIndexed db P now) c =
      (db.filter fun w =>
        (w.collection_id == c && !w.is_indexed && w.content_markdown.isSome) &&
        !(P.contains w.id)).map toWebpageData := by
  unfold get_unindexed_documents updateIsIndexed
  rw [List.filter_map, List.map_map]
  rw [List.filter_congr (fun w _ => ?_), List.map_congr_left (fun w hw => ?_)]
  · by_cases hP : w.id ∈ P <;> simp [Function.comp, hP, toWebpageData]
  · by_cases hP : w.id ∈ P <;> simp [Function.comp, hP]

/-! ## Claim C4 -/

/-- C4: `mark_documents_as_indexed` writes the indexed flag and timestamp in
sub-batches of at most 100 ids, each committed on its own; when the
`UPDATE`/commit of sub-batch `j` raises, the rollback discards only that
sub-batch, so the resulting table has exactly the ids of the `j` previously
committed sub-batches marked (`is_indexed = true`, `indexed_at = now`) and
every other row — in particular every remaining id — untouched; a retry
(`get_unindexed_documents` on the failure state) re-selects exactly the
previously selectable rows whose id is not in a committed sub-batch.
Without a failure, every id ends up marked. -/
theorem mark_documents_as_indexed_batching (db : List Webpage) (ids : List Nat)
    (now j : Nat) (c : String) (hj : j < (toBatches ids).length) :
    (∀ b ∈ toBatches ids, b.length ≤ 100) ∧
    mark_documents_as_indexed db ids now (some j) =
      .error (updateIsIndexed db (((toBatches ids).take j).flatten) now) ∧
    mark_documents_as_indexed db ids now none =
      .ok (updateIsIndexed db ids now) ∧
    get_unindexed_documents
        (updateIsIndexed db (((toBatches ids).take j).flatten) now) c =
      (db.filter fun w =>
        (w.collection_id == c && !w.is_indexed && w.content_markdown.isSome) &&
        !((((toBatches ids).take j).flatten).contains w.id)).map toWebpageData := by
  have hne : ids ≠ [] := by
    intro h
    subst h
    simp [toBatches, toBatchesGo] at hj
  have hempty : ids.isEmpty = false := by
    cases ids with
    | nil => exact absurd rfl hne
    | cons x xs => rfl
  refine ⟨fun b hb => toBatchesGo_length_le _ _ _ hb, ?_, ?_, ?_⟩
  · rw [mark_documents_as_indexed, if_neg (by simp [hempty])]
    have h := markGo_fail now (toBatches ids) db 0 j hj
    rwa [Nat.zero_add] at h
  · rw [mark_documents_as_indexed, if_neg (by simp [hempty]),
      markGo_none, toBatches_flatten]
  · exact get_unindexed_updateIsIndexed db _ now c

/-- Witness for C4: 101 ids form two sub-batches (100 + 1); a failure at
sub-batch 1 leaves the first hundred ids marked (row 0 below) and the rest
untouched (row 100 below). -/
theorem mark_documents_as_indexed_batching_witness :
    1 < (toBatches (List.range 101)).length ∧
    mark_documents_as_indexed
      [⟨0, "c", "u", none, some "x", none, false, none⟩,
       ⟨100, "c", "v", none, some "y", none, false, none⟩]
      (List.range 101) 5 (some 1) =
      .error
      [⟨0, "c", "u", none, some "x", none, true, some 5⟩,
       ⟨100, "c", "v", none, some "y", none, false, none⟩] := by
  refine ⟨by decide, ?_⟩
  have h := (mark_documents_as_indexed_batching
    [⟨0, "c", "u", none, some "x", none, false, none⟩,
     ⟨100, "c", "v", none, some "y", none, false, none⟩]
    (List.range 101) 5 1 "c" (by decide)).2.1
  exact h.trans (congrArg Except.error (by decide))

/-! ## Lemmas: provenance of a marked row -/

/-- A row that is indexed after `updateIsIndexed` was either already indexed
in the original table or has its id in the updated id set. -/
lemma updateIsIndexed_marked_source (db : List Webpage) (S : List Nat) (now : Nat)
    (w' : Webpage) (h : w' ∈ updateIsIndexed db S now) (hi : w'.is_indexed = true) :
    (∃ w ∈ db, w.id = w'.id ∧ w.is_indexed = true) ∨ w'.id ∈ S := by
  obtain ⟨w, hw, rfl⟩ := List.mem_map.mp h
  by_cases hc : S.contains w.id
  · right
    rw [if_pos hc]
    exact (by simpa using hc : w.id ∈ S)
  · left
    rw [if_neg hc] at hi ⊢
    exact ⟨w, hw, rfl, hi⟩

lemma mem_flatten_take {x : Nat} (bs : List (List Nat)) (j : Nat)
    (h : x ∈ (bs.take j).flatten) : x ∈ bs.flatten := by
  obtain ⟨l, hl, hx⟩ := List.mem_flatten.mp h
  exact List.mem_flatten.mpr ⟨l, List.mem_of_mem_take hl, hx⟩

/-- Whatever the failure oracle does, `mark_documents_as_indexed` leaves the
table equal to `updateIsIndexed db S now` for some subset `S` of the given
ids (all of them on the success path, the committed prefix on the failure
path). -/
lemma mark_result_update (db : List Webpage) (ids : List Nat) (now : Nat)
    (fa : Option Nat) :
    ∃ S : List Nat, (∀ x ∈ S, x ∈ ids) ∧
      (mark_documents_as_indexed db ids now fa = .ok (updateIsIndexed db S now) ∨
       mark_documents_as_indexed db ids now fa = .error (updateIsIndexed db S now)) := by
  by_cases hids : ids.isEmpty
  · refine ⟨[], by simp, Or.inl ?_⟩
    rw [mark_documents_as_indexed, if_pos hids, updateIsIndexed_nil]
  · have hempty : ids.isEmpty = false := by
      rwa [Bool.not_eq_true] at hids
    cases fa with
    | none =>
      exact ⟨ids, fun x hx => hx, Or.inl (by
        rw [mark_documents_as_indexed, if_neg (by simp [hempty]),
          markGo_none, toBatches_flatten])⟩
    | some j =>
      by_cases hj : j < (toBatches ids).length
      · refine ⟨((toBatches ids).take j).flatten, ?_, Or.inr ?_⟩
        · intro x hx
          have hx' := mem_flatten_take _ _ hx
          rwa [toBatches_flatten] at hx'
        · rw [mark_documents_as_indexed, if_neg (by simp [hempty])]
          have h := markGo_fail now (toBatches ids) db 0 j hj
          rwa [Nat.zero_add] at h
      · refine ⟨ids, fun x hx => hx, Or.inl ?_⟩
        rw [mark_documents_as_indexed, if_neg (by simp [hempty])]
        have h := markGo_miss now (toBatches ids) db 0 j (by omega)
        rwa [toBatches_flatten] at h

/-- Every run of `index_documents_by_collection` either leaves the table
unchanged or marks exactly some subset of ids that are all covered by the
final vector-store state. -/
lemma index_result_cases (db : List Webpage) (vs : List Nat) (c e : String)
    (now : Nat) (fail : RunFailure) :
    (index_documents_by_collection db vs c fail e now).2.1 = db ∨
    ∃ S : List Nat,
      (∀ x ∈ S, x ∈ (index_documents_by_collection db vs c fail e now).2.2) ∧
      (index_documents_by_collection db vs c fail e now).2.1 =
        updateIsIndexed db S now := by
  by_cases hD : (get_unindexed_documents db c).isEmpty
  · left
    simp [index_documents_by_collection, hD]
  · cases fail with
    | atSetup => left; simp [index_documents_by_collection, hD]
    | atPipeline => left; simp [index_documents_by_collection, hD]
    | atIndex => left; simp [index_documents_by_collection, hD]
    | atMark j =>
      obtain ⟨S, hS, hok | herr⟩ :=
        mark_result_update db ((get_unindexed_documents db c).map (·.id)) now (some j)
      all_goals
        right
        refine ⟨S, fun x hx => ?_, ?_⟩
      · simp only [index_documents_by_collection, hD, hok]
        simp [List.mem_append, hS x hx]
      · simp only [index_documents_by_collection, hD, hok]
        simp
      · simp only [index_documents_by_collection, hD, herr]
        simp [List.mem_append, hS x hx]
      · simp only [index_documents_by_collection, hD, herr]
        simp
    | noFailure =>
      obtain ⟨S, hS, hok | herr⟩ :=
        mark_result_update db ((get_unindexed_documents db c).map (·.id)) now none
      all_goals
        right
        refine ⟨S, fun x hx => ?_, ?_⟩
      · simp only [index_documents_by_collection, hD, hok]
        simp [List.mem_append, hS x hx]
      · simp only [index_documents_by_collection, hD, hok]
        simp
      · simp only [index_documents_by_collection, hD, herr]
        simp [List.mem_append, hS x hx]
      · simp only [index_documents_by_collection, hD, herr]
        simp

/-! ## Claim C1 -/

/-- C1: in an `index_documents_by_collection` run, an exception raised in
`setup_vector_store`, in `pipeline.run` (chunking, embedding, vector-store
upsert) or in `VectorStoreIndex` makes the run return before any
indexed-flag mutation — the table comes back unchanged; and in every run
whatsoever, a row that ends up with `is_indexed = true` either was already
indexed before the run or has its id covered by the vector store's upserted
entries when the run returns: no record is ever marked indexed without its
vectors having been successfully upserted. -/
theorem index_documents_flag_only_after_upsert :
    (∀ (db : List Webpage) (vs : List Nat) (c e : String) (now : Nat),
      (index_documents_by_collection db vs c .atSetup e now).2.1 = db ∧
      (index_documents_by_collection db vs c .atPipeline e now).2.1 = db ∧
      (index_documents_by_collection db vs c .atIndex e now).2.1 = db) ∧
    (∀ (db : List Webpage) (vs : List Nat) (c e : String) (now : Nat)
        (fail : RunFailure) (w' : Webpage),
      w' ∈ (index_documents_by_collection db vs c fail e now).2.1 →
      w'.is_indexed = true →
      (∃ w ∈ db, w.id = w'.id ∧ w.is_indexed = true) ∨
      w'.id ∈ (index_documents_by_collection db vs c fail e now).2.2) := by
  constructor
  · intro db vs c e now
    refine ⟨?_, ?_, ?_⟩ <;>
      (by_cases hD : (get_unindexed_documents db c).isEmpty <;>
        simp [index_documents_by_collection, hD])
  · intro db vs c e now fail w' hw' hi
    rcases index_result_cases db vs c e now fail with hsame | ⟨S, hS, hupd⟩
    · rw [hsame] at hw'
      exact Or.inl ⟨w', hw', rfl, hi⟩
    · rw [hupd] at hw'
      rcases updateIsIndexed_marked_source db S now w' hw' hi with hold | hnew
      · exact Or.inl hold
      · exact Or.inr (hS _ hnew)

/-- Witness for C1: a successful run over a one-row table marks the row and
its id is covered by the upserted vector entries. -/
theorem index_documents_flag_only_after_upsert_witness :
    (⟨1, "c", "u", none, some "x", none, true, some 7⟩ : Webpage) ∈
      (index_documents_by_collection
        [⟨1, "c", "u", none, some "x", none, false, none⟩] [] "c"
        .noFailure "" 7).2.1 ∧
    ((∃ w ∈ [(⟨1, "c", "u", none, some "x", none, false, none⟩ : Webpage)],
        w.id = (⟨1, "c", "u", none, some "x", none, true, some 7⟩ : Webpage).id ∧
        w.is_indexed = true) ∨
      (⟨1, "c", "u", none, some "x", none, true, some 7⟩ : Webpage).id ∈
        (index_documents_by_collection
          [⟨1, "c", "u", none, some "x", none, false, none⟩] [] "c"
          .noFailure "" 7).2.2) :=
  ⟨by decide,
   index_documents_flag_only_after_upsert.2 _ _ _ _ _ _ _ (by decide) (by decide)⟩

/-! ## Claim C8 -/

/-- C8: when `process_chat` receives a session id that does not correspond
to an existing session, it creates a session under exactly that id
(`create_chat_session_with_id`), proceeds with an empty message history
(the agent is invoked with no prior history — the `run` in the conclusion
is the result of the history-free call), and answers normally instead of
returning a not-found error; afterwards the session exists under the
supplied id, holding the run's new messages. -/
theorem process_chat_creates_unknown_session
    (db : ChatDB) (req : ChatRequest) (sid freshId traceId : String)
    (agent : Option (List ModelMessage) → String → Except String AgentRun)
    (run : AgentRun)
    (hsid : req.session_id = some sid) (hne : sid ≠ "")
    (hunknown : get_chat_by_session_id db sid = none)
    (hagent : agent none req.message = .ok run) :
    process_chat db req freshId traceId agent true =
      .ok ({ session_id := sid, answer := run.output.answer,
             sources := run.output.sources, confidence := run.output.confidence,
             retriever_type := run.output.retriever_type,
             trace_id := some traceId },
           (db ++ ([⟨sid, req.user_id, []⟩] : ChatDB)).map fun s =>
             if s.session_id == sid then
               { s with messages := s.messages ++ run.new_messages } else s) ∧
    get_chat_by_session_id
      ((db ++ ([⟨sid, req.user_id, []⟩] : ChatDB)).map fun s =>
        if s.session_id == sid then
          { s with messages := s.messages ++ run.new_messages } else s) sid =
      some ⟨sid, req.user_id, run.new_messages⟩ := by
  have hall : ∀ s ∈ db, (s.session_id == sid) = false := by
    intro s hs
    have h := List.find?_eq_none.mp hunknown s hs
    simpa using h
  have hfalsy : pyFalsyStr (some sid) = false := by
    simpa [pyFalsyStr] using beq_eq_false_iff_ne.mpr hne
  constructor
  · simp only [process_chat, hsid, hfalsy, Bool.false_eq_true, if_false,
      Option.getD_some, hunknown, hagent, save_messages, Bool.not_true]
    simp [create_chat_session_with_id]
  · unfold get_chat_by_session_id
    rw [List.map_append, List.find?_append]
    have h1 : List.find? (fun s => s.session_id == sid)
        (db.map fun s => if s.session_id == sid then
          { s with messages := s.messages ++ run.new_messages } else s) = none := by
      rw [List.find?_eq_none]
      intro x hx
      obtain ⟨s, hs, rfl⟩ := List.mem_map.mp hx
      rw [if_neg (by simp [hall s hs])]
      simp [hall s hs]
    rw [h1]
    simp

/-- Witness for C8 at concrete inputs: the request carries the unknown id
`abc` over an empty session store; the call succeeds under that very id and
the session exists afterwards. -/
theorem process_chat_creates_unknown_session_witness :
    process_chat [] ⟨"hi", some "abc", none⟩ "f" "t"
        (fun _ _ => .ok ⟨⟨"ans", [], 0, "vector"⟩,
          [⟨"request", none, "hi"⟩, ⟨"response", none, "ans"⟩],
          [⟨"response", none, "ans"⟩]⟩) true =
      .ok ({ session_id := "abc", answer := "ans", sources := [], confidence := 0,
             retriever_type := "vector", trace_id := some "t" },
           [⟨"abc", none, [⟨"response", none, "ans"⟩]⟩]) ∧
    get_chat_by_session_id [⟨"abc", none, [⟨"response", none, "ans"⟩]⟩] "abc" =
      some ⟨"abc", none, [⟨"response", none, "ans"⟩]⟩ := by
  have h := process_chat_creates_unknown_session [] ⟨"hi", some "abc", none⟩
    "abc" "f" "t"
    (fun _ _ => .ok ⟨⟨"ans", [], 0, "vector"⟩,
      [⟨"request", none, "hi"⟩, ⟨"response", none, "ans"⟩],
      [⟨"response", none, "ans"⟩]⟩)
    ⟨⟨"ans", [], 0, "vector"⟩,
      [⟨"request", none, "hi"⟩, ⟨"response", none, "ans"⟩],
      [⟨"response", none, "ans"⟩]⟩
    rfl (by decide) rfl rfl
  exact ⟨h.1, h.2⟩

/-! ## Claim C9 -/

/-- C9 (code bug): deleting a non-existent chat session — the spec-modelled
`delete_chat_session` duly reports `false` (success boolean, not an error),
and the endpoint duly raises `HTTPException(404, ...)` for it; but
`delete_chat`'s blanket `except Exception` (with no prior
`except HTTPException: raise` arm, unlike the two sibling endpoints in the
same file) catches that 404 and re-raises it as a 500. The endpoint hence
answers status 500 both for the not-found outcome and for a persistence
failure — the same status class instead of the distinct report the claim
(and §7 of the spec) requires. -/
theorem delete_chat_not_found_conflated :
    delete_chat_session ([] : ChatDB) "ghost" = (false, []) ∧
    delete_chat ([] : ChatDB) "ghost" none =
      .error ⟨500, "Internal server error: 404: Chat session ghost not found"⟩ ∧
    delete_chat ([] : ChatDB) "ghost" (some "database unavailable") =
      .error ⟨500, "Internal server error: database unavailable"⟩ ∧
    (delete_chat ([] : ChatDB) "ghost" none).isOk = false := by
  exact ⟨rfl, rfl, rfl, rfl⟩

end GovBot
